import Mathlib

/-!
Verification of the data-driven truss solver (`ddtruss/solver.py`).

The whole program is the class `DataDrivenSolver`; its state, its two methods
`load_material_data` and `solve`, and the helper `_optimal_local_states` are
embedded below over `ℚ`.

Modelling conventions.
* Machine floats are modelled by rationals; `np.isclose` / `np.allclose` are
  embedded with their exact default tolerances (`rtol = 1e-5`, `atol = 1e-8`).
* `numpy.mean` of an empty array yields NaN (with a warning, no exception);
  NaN is not a rational, so the mean is embedded as an `Option ℚ` that is
  `none` exactly on the empty array.
* `scipy.spatial.cKDTree` is embedded by the list of points it is built over;
  `query` returns the true nearest neighbour (lowest index on ties), which is
  what the kd-tree computes.  Distances are compared through their squares so
  that everything stays inside `ℚ` (squaring is monotone on nonnegatives);
  accordingly the external `truss.integrate` collaborator is modelled as an
  abstract function of the squared distances.
* `sqE = np.sqrt(E_num)` is irrational in general, so `solve` receives the
  already-resolved pair `(E, sqE)`; theorems that need the connection carry
  `sqE * sqE = E` as a hypothesis, and the optional-`E_num` resolution step
  performed at the top of `solve` is embedded separately as `effectiveE`.
* `np.random.randint(n_data, size=n_lines)` is modelled by an explicit
  argument `idx0` holding the drawn indices.
* The external collaborator `truss` (out of scope for the solver) is an
  abstract structure of functions; the call `truss.solve(...)` in sub-problem
  B omits `construct_K`, so the collaborator carries the default value of
  that flag.
-/

namespace DDTruss

/-- A measured material sample: one `(strain, stress)` pair. -/
abbrev Sample := ℚ × ℚ

/-- The mutable state of a `DataDrivenSolver` instance: `material_data`
(loaded sample set), `data_tree` (the lazily built kd-tree, represented by
the list of rescaled points it was built over, `none` before it is built)
and `sqE` (the scale written by the most recent `solve` call). -/
structure SolverState where
  material_data : List Sample
  data_tree : Option (List Sample)
  sqE : ℚ
deriving DecidableEq

/-- Reading one row of a two-column ndarray as a pair. -/
def toPair (r : List ℚ) : Sample := (r.headD 0, (r.drop 1).headD 0)

/-- `load_material_data` (solver.py:18-30).  The guard is
`assert material_data.shape[1] == 2`; for a well-formed two-dimensional
ndarray `shape[1]` is the common length of all rows, embedded here as the
length of the first row (theorems add the well-formedness hypothesis that
the rows are uniform).  A failed assertion is `none`.  On success the data
is stored and the cached tree is reset to `None`. -/
def load_material_data (st : SolverState) (rows : List (List ℚ)) :
    Option SolverState :=
  match rows.head? with
  | none => none
  | some r =>
    if r.length = 2 then
      some { st with material_data := rows.map toPair, data_tree := none }
    else none

/-- The rescaling applied both to the data behind the kd-tree and to every
query point: strain times `sqE`, stress divided by `sqE` (solver.py:112-118). -/
def rescale (sqE : ℚ) (p : Sample) : Sample := (p.1 * sqE, p.2 / sqE)

/-- Squared euclidean distance between two points of the rescaled plane. -/
def dist2 (p q : Sample) : ℚ := (p.1 - q.1) ^ 2 + (p.2 - q.2) ^ 2

/-- The point list the kd-tree is built over: the rescaled copy of the
material data (solver.py:111-114; the source copies before scaling). -/
def buildTree (data : List Sample) (sqE : ℚ) : List Sample :=
  data.map (rescale sqE)

/-- Linear scan behind `nearestIdx`: carries the position `i` of the head of
the remaining list, the best index so far and its squared distance. -/
def argminAux (q : Sample) : List Sample → Nat → Nat → ℚ → Nat
  | [], _, best, _ => best
  | p :: ps, i, best, bestd =>
    if dist2 q p < bestd then argminAux q ps (i + 1) i (dist2 q p)
    else argminAux q ps (i + 1) best bestd

/-- The index returned by `cKDTree.query q`: the index of a point of `pts`
nearest to `q` (lowest such index on ties). -/
def nearestIdx (q : Sample) : List Sample → Nat
  | [] => 0
  | p :: ps => argminAux q ps 1 0 (dist2 q p)

/-- Result record of `_optimal_local_states`: matched indices, matched
`(strain, stress)` rows of the original data, objective value, and the
updated solver state (the tree may have been built). -/
structure LocalStates where
  idx : List Nat
  eps_sig_optimal : List Sample
  f_obj : ℚ
  st : SolverState

/-- `_optimal_local_states` (solver.py:110-123).  If `data_tree` is `None`
the tree is built over the rescaled data with the *current* `sqE`; otherwise
the cached tree is used as is.  Queries are the rescaled copies of the
candidate states; the matched rows are read from the original, unscaled
`material_data`; `integrate` is the external `truss.integrate`. -/
def optimal_local_states (st : SolverState) (eps_sig : List Sample)
    (integrate : List ℚ → ℚ) : LocalStates :=
  let tree := match st.data_tree with
    | some t => t
    | none => buildTree st.material_data st.sqE
  let qs := eps_sig.map (rescale st.sqE)
  let idx := qs.map (fun q => nearestIdx q tree)
  { idx := idx
    eps_sig_optimal := idx.map (fun i => st.material_data.getD i (0, 0))
    f_obj := integrate (qs.map (fun q => dist2 q (tree.getD (nearestIdx q tree) (0, 0))))
    st := { st with data_tree := some tree } }

/-- `np.isclose a b` with the default tolerances:
`|a - b| <= atol + rtol * |b|`, `atol = 1e-8`, `rtol = 1e-5`. -/
def iscloseQ (a b : ℚ) : Bool :=
  decide (|a - b| ≤ 1 / 100000000 + |b| / 100000)

/-- `np.allclose` over two equal-length integer index arrays
(solver.py:103). -/
def allcloseIdx (a b : List Nat) : Bool :=
  (a.zip b).all fun p => iscloseQ (p.1 : ℚ) (p.2 : ℚ)

/-- `np.isclose(strain, 0)`: `|strain| <= 1e-8`. -/
def iscloseZero (x : ℚ) : Bool := decide (|x| ≤ 1 / 100000000)

/-- The secant moduli `stress / strain` of the samples whose strain is not
numerically zero (solver.py:63-64). -/
def secantList (data : List Sample) : List ℚ :=
  (data.filter fun p => !iscloseZero p.1).map fun p => p.2 / p.1

/-- `np.mean`: `none` models the NaN produced on an empty array. -/
def npMean (xs : List ℚ) : Option ℚ :=
  if xs.isEmpty then none else some (xs.sum / xs.length)

/-- `E_secent.mean()` over the nonzero-strain samples (solver.py:62-65). -/
def deriveE (data : List Sample) : Option ℚ := npMean (secantList data)

/-- The `E_num` the loop actually runs with: the caller's value when given,
otherwise the derived mean secant modulus; `none` is the NaN that the code
silently continues with when the derivation has no samples. -/
def effectiveE (E_num : Option ℚ) (data : List Sample) : Option ℚ :=
  match E_num with
  | some E => some E
  | none => deriveE data

/-- A prescribed-displacement map: point id to per-axis optional values,
`none` meaning an unconstrained axis (the python dict of tuples). -/
abbrev BCMap := List (Nat × List (Option ℚ))

/-- A prescribed-force map: point id to per-axis force values. -/
abbrev FMap := List (Nat × List ℚ)

/-- The zeroed Dirichlet map built at the start of `solve` (solver.py:72-75):
a fresh map where every prescribed value becomes `0` and every `None` stays
`None`. -/
def U_dict_0 (U : BCMap) : BCMap :=
  U.map fun kv =>
    (kv.1, kv.2.map fun v => match v with
      | some _ => some (0 : ℚ)
      | none => none)

/-- One call to the external `truss.solve` with its keyword arguments. -/
structure TrussCall where
  A : ℚ
  E : ℚ
  U_dict : BCMap
  F_dict : FMap
  sig0 : List ℚ
  construct_K : Bool
deriving DecidableEq

/-- The external truss collaborator: `tsolve` returns `(u, eps)` (the third
return value of `truss.solve` is never used by the solver), `integrate`
turns per-element residuals into the scalar objective, and
`construct_K_default` is the default of the flag omitted in the second
call of each iteration. -/
structure Truss where
  n_lines : Nat
  tsolve : TrussCall → List ℚ × List ℚ
  integrate : List ℚ → ℚ
  construct_K_default : Bool

/-- Loop-carried state of the `while` loop in `solve`: previous matched
indices `idx`, current matched local states `eps_sig` (named `eps_sig_` in
the source), the solver state and the trace `f_obj_iter`. -/
structure IterState where
  idx : List Nat
  eps_sig : List Sample
  st : SolverState
  trace : List ℚ

/-- Arguments of the first `truss.solve` call of an iteration
(solver.py:79-87): the caller's `U_dict`, no forces,
`sig0 = -E_num * eps_sig_[:, 0]`, and `construct_K` true exactly when the
trace is still empty (`len(f_obj_iter) == 0`). -/
def subACall (A E : ℚ) (U : BCMap) (s : IterState) : TrussCall :=
  { A := A, E := E, U_dict := U, F_dict := []
    sig0 := s.eps_sig.map fun p => -E * p.1
    construct_K := s.trace.isEmpty }

/-- Arguments of the second `truss.solve` call of an iteration
(solver.py:89-93): the zeroed Dirichlet map, the caller's forces,
`sig0 = eps_sig_[:, 1]`, and the collaborator's default flag. -/
def subBCall (A E : ℚ) (U : BCMap) (F : FMap) (kdef : Bool) (s : IterState) :
    TrussCall :=
  { A := A, E := E, U_dict := U_dict_0 U, F_dict := F
    sig0 := s.eps_sig.map Prod.snd
    construct_K := kdef }

/-- Result of one iteration body. -/
structure IterResult where
  u : List ℚ
  cand : List Sample
  newIdx : List Nat
  newOpt : List Sample
  f_obj : ℚ
  st : SolverState

/-- One body of the `while` loop (solver.py:79-99): the two mechanical
sub-problems, the combined stress `sig = eps_sig_[:, 1] + E_num * eps_eta`,
the candidate pairs `hstack(eps, sig)` and their projection. -/
def iterBody (tr : Truss) (A E : ℚ) (U : BCMap) (F : FMap) (s : IterState) :
    IterResult :=
  let u := (tr.tsolve (subACall A E U s)).1
  let eps := (tr.tsolve (subACall A E U s)).2
  let eps_eta := (tr.tsolve (subBCall A E U F tr.construct_K_default s)).2
  let sig := (s.eps_sig.zip eps_eta).map fun p => p.1.2 + E * p.2
  let cand := eps.zip sig
  let ls := optimal_local_states s.st cand tr.integrate
  { u := u, cand := cand, newIdx := ls.idx, newOpt := ls.eps_sig_optimal
    f_obj := ls.f_obj, st := ls.st }

/-- What `solve` hands back.  The non-convergence branch of the source does
`return RuntimeError(f"... not converged after {n_iterations} iterations")`:
it *returns* an error value through the ordinary return channel instead of
raising, and the value carries only the iteration budget, not the trace.
`returnedError` models exactly that value. -/
inductive SolveOutcome where
  | ok (u eps sig trace : List ℚ)
  | returnedError (n_iterations : Nat)
deriving DecidableEq

/-- The `while len(f_obj_iter) <= n_iterations` loop (solver.py:78-108),
fuelled: entering with trace length `t`, the remaining fuel is
`n_iterations + 1 - t`, so fuel `0` is exactly the loop condition turning
false and the `while/else` branch returning the error value.  The third
component logs, in order, the `construct_K` flag of every sub-problem-A
call made. -/
def solveLoop (tr : Truss) (A E : ℚ) (U : BCMap) (F : FMap)
    (n_iterations : Nat) : Nat → IterState → SolveOutcome × SolverState × List Bool
  | 0, s => (.returnedError n_iterations, s.st, [])
  | fuel + 1, s =>
    let r := iterBody tr A E U F s
    if allcloseIdx s.idx r.newIdx then
      (.ok r.u (r.cand.map Prod.fst) (r.cand.map Prod.snd) (s.trace ++ [r.f_obj]),
        r.st, [(subACall A E U s).construct_K])
    else
      let rest := solveLoop tr A E U F n_iterations fuel
        { idx := r.newIdx, eps_sig := r.newOpt, st := r.st,
          trace := s.trace ++ [r.f_obj] }
      (rest.1, rest.2.1, (subACall A E U s).construct_K :: rest.2.2)

/-- `solve` with `E_num` already resolved to `E` and `sqE` (see the header
comment): writes `sqE` into the state, draws the initial local states
`eps_sig_ = material_data[idx0]`, and runs the loop on an empty trace. -/
def solve (tr : Truss) (st : SolverState) (A : ℚ) (U : BCMap) (F : FMap)
    (n_iterations : Nat) (E sqE : ℚ) (idx0 : List Nat) :
    SolveOutcome × SolverState × List Bool :=
  solveLoop tr A E U F n_iterations (n_iterations + 1)
    { idx := idx0
      eps_sig := idx0.map fun i => st.material_data.getD i (0, 0)
      st := { st with sqE := sqE }
      trace := [] }

/-! Concrete fixtures used by the closed evaluations and witnesses. -/

/-- Two-sample data set for the converging concrete run. -/
def exData : List Sample := [(0, 0), (1, 2)]

/-- A prescribed-displacement map with one constrained and one free axis. -/
def exU : BCMap := [(0, [some 1, none])]

/-- A nonempty prescribed-force map. -/
def exF : FMap := [(1, [3, 0])]

/-- Concrete external collaborator for the converging run: the sub-problem-A
call (recognised by its empty force map) yields `u = [5]`, `eps = [2/5]`;
the sub-problem-B call yields `eps_eta = [1/10]`. -/
def exTruss : Truss :=
  { n_lines := 1
    tsolve := fun c => if c.F_dict.isEmpty then ([5], [2/5]) else ([0], [1/10])
    integrate := List.sum
    construct_K_default := false }

/-- Fresh solver state holding `exData`. -/
def exState : SolverState := { material_data := exData, data_tree := none, sqE := 1 }

/-- The loop state `solve exTruss exState 1 exU exF _ 1 1 [0]` starts from. -/
def exIter : IterState :=
  { idx := [0], eps_sig := [(0, 0)], st := exState, trace := [] }

/-- Data set for the non-converging concrete run. -/
def c1Data : List Sample := [(0, 0), (1, 1)]

/-- Collaborator for the non-converging run: sub-problem B yields
`eps_eta = [-1]`, which drives the matched index from 1 to 0. -/
def c1Truss : Truss :=
  { n_lines := 1
    tsolve := fun c => if c.F_dict.isEmpty then ([0], [0]) else ([0], [-1])
    integrate := List.sum
    construct_K_default := false }

/-- Fresh solver state holding `c1Data`. -/
def c1State : SolverState := { material_data := c1Data, data_tree := none, sqE := 1 }

/-- Data set for the stale-index run. -/
def c5Data : List Sample := [(1, 0), (0, 4)]

/-- Trivial collaborator for the stale-index run. -/
def c5Truss : Truss :=
  { n_lines := 1, tsolve := fun _ => ([0], [0]), integrate := List.sum
    construct_K_default := false }

/-- The solver state a first `solve` call with `E_num = 1` leaves behind. -/
def c5AfterFirst : SolverState :=
  (solve c5Truss { material_data := c5Data, data_tree := none, sqE := 0 }
    1 [] [] 3 1 1 [0]).2.1

/-! Theorems.  First some general helper lemmas, then one theorem per
claim (with its witness or counterexample where required). -/

/-- Reading through `List.map` with `getD`, inside the bounds. -/
theorem getD_map_of_lt {α β : Type} (f : α → β) (l : List α) (i : Nat)
    (h : i < l.length) (d : α) (d' : β) :
    (l.map f).getD i d' = f (l.getD i d) := by
  rw [List.getD_eq_getElem _ _ (by simpa using h), List.getD_eq_getElem _ _ h,
    List.getElem_map]

/-- Reading through `List.zip` with `getD`, inside the bounds. -/
theorem getD_zip_of_lt {α β : Type} (l : List α) (l' : List β) (i : Nat)
    (h1 : i < l.length) (h2 : i < l'.length) (d : α) (d' : β) :
    (l.zip l').getD i (d, d') = (l.getD i d, l'.getD i d') := by
  rw [List.getD_eq_getElem _ _ (by rw [List.length_zip]; omega),
    List.getD_eq_getElem _ _ h1, List.getD_eq_getElem _ _ h2, List.getElem_zip]

/-- A row of the rescaled point list behind the kd-tree. -/
theorem buildTree_getD (data : List Sample) (sqE : ℚ) (m : Nat)
    (hm : m < data.length) :
    (buildTree data sqE).getD m (0, 0) = rescale sqE (data.getD m (0, 0)) := by
  rw [buildTree]; exact getD_map_of_lt _ _ _ hm _ _

/-- Invariant of the linear scan behind `nearestIdx`: if the remaining list
`ps` is the tail of `pts` from position `i` on, the running best is a valid
index realising the distance `bestd`, and `bestd` already beats every
position before `i`, then the final answer is a valid index whose distance
beats every position of `pts`. -/
theorem argminAux_spec (q : Sample) (ps : List Sample) :
    ∀ (pts : List Sample) (i best : Nat) (bestd : ℚ),
      pts.length = i + ps.length →
      (∀ k, k < ps.length → ps.getD k (0, 0) = pts.getD (i + k) (0, 0)) →
      best < pts.length →
      bestd = dist2 q (pts.getD best (0, 0)) →
      (∀ j, j < i → bestd ≤ dist2 q (pts.getD j (0, 0))) →
      argminAux q ps i best bestd < pts.length ∧
        ∀ j, j < pts.length →
          dist2 q (pts.getD (argminAux q ps i best bestd) (0, 0)) ≤
            dist2 q (pts.getD j (0, 0)) := by
  induction ps with
  | nil =>
    intro pts i best bestd hlen hps hbest hval hmin
    refine ⟨by simpa [argminAux] using hbest, ?_⟩
    intro j hj
    have hj' : j < i := by simp at hlen; omega
    rw [argminAux, ← hval]
    exact hmin j hj'
  | cons p ps ih =>
    intro pts i best bestd hlen hps hbest hval hmin
    have hp : p = pts.getD i (0, 0) := by
      have h0 := hps 0 (by simp)
      simpa using h0
    have hlen' : pts.length = (i + 1) + ps.length := by simp at hlen ⊢; omega
    have hps' : ∀ k, k < ps.length → ps.getD k (0, 0) = pts.getD (i + 1 + k) (0, 0) := by
      intro k hk
      have h := hps (k + 1) (by simp; omega)
      rw [List.getD_cons_succ] at h
      rw [show i + 1 + k = i + (k + 1) from by omega]
      exact h
    have hilt : i < pts.length := by simp at hlen; omega
    rw [argminAux]
    by_cases hlt : dist2 q p < bestd
    · rw [if_pos hlt]
      refine ih pts (i + 1) i (dist2 q p) hlen' hps' hilt (by rw [hp]) ?_
      intro j hj
      rcases Nat.lt_succ_iff_lt_or_eq.mp hj with h | h
      · exact le_of_lt (lt_of_lt_of_le hlt (hval ▸ hmin j h))
      · subst h; exact le_of_eq (by rw [hp])
    · rw [if_neg hlt]
      push_neg at hlt
      refine ih pts (i + 1) best bestd hlen' hps' hbest hval ?_
      intro j hj
      rcases Nat.lt_succ_iff_lt_or_eq.mp hj with h | h
      · exact hmin j h
      · subst h; rw [← hp]; exact hlt

/-- The kd-tree query `nearestIdx` returns a valid index whose squared
distance to the query is minimal over all points of the tree. -/
theorem nearestIdx_spec (q : Sample) (pts : List Sample) (hne : pts ≠ []) :
    nearestIdx q pts < pts.length ∧
      ∀ j, j < pts.length →
        dist2 q (pts.getD (nearestIdx q pts) (0, 0)) ≤
          dist2 q (pts.getD j (0, 0)) := by
  match pts, hne with
  | p :: ps, _ =>
    rw [nearestIdx]
    refine argminAux_spec q ps (p :: ps) 1 0 (dist2 q p) (by simp; omega) ?_ (by simp)
      (by simp) ?_
    · intro k hk
      rw [show 1 + k = k + 1 from by omega, List.getD_cons_succ]
    · intro j hj
      have hj0 : j = 0 := by omega
      subst hj0
      simp

/-- Under a consistent cache, the matched index of query `k` is the nearest
neighbour of its rescaled copy in the tree over the rescaled data. -/
theorem optimal_idx_getD (st : SolverState) (eps_sig : List Sample)
    (integ : List ℚ → ℚ)
    (hcache : st.data_tree = none ∨
      st.data_tree = some (buildTree st.material_data st.sqE))
    (k : Nat) (hk : k < eps_sig.length) :
    (optimal_local_states st eps_sig integ).idx.getD k 0 =
      nearestIdx (rescale st.sqE (eps_sig.getD k (0, 0)))
        (buildTree st.material_data st.sqE) := by
  have htree : (match st.data_tree with
      | some t => t
      | none => buildTree st.material_data st.sqE) =
      buildTree st.material_data st.sqE := by
    rcases hcache with h | h <;> rw [h]
  simp only [optimal_local_states, htree]
  rw [getD_map_of_lt _ _ _ (by simpa using hk) (0, 0) 0,
    getD_map_of_lt _ _ _ hk (0, 0) (0, 0)]

/-- The matched row of query `k` is the row of the original, unscaled data
at the matched index. -/
theorem optimal_opt_getD (st : SolverState) (eps_sig : List Sample)
    (integ : List ℚ → ℚ) (k : Nat) (hk : k < eps_sig.length) :
    (optimal_local_states st eps_sig integ).eps_sig_optimal.getD k (0, 0) =
      st.material_data.getD
        ((optimal_local_states st eps_sig integ).idx.getD k 0) (0, 0) := by
  simp only [optimal_local_states]
  rw [getD_map_of_lt _ _ _ (by simpa using hk) 0 (0, 0)]

/-- C7: the projection returns, for every query pair, an index minimizing
the rescaled squared euclidean distance (strain scaled by `sqE`, stress by
`1/sqE`) over the entire Material Sample Set — hence minimizing the
euclidean distance itself, squaring being monotone on nonnegatives — and
the matched pair handed back is the row of the original, unscaled data at
that index.  `hcache` says the cached tree, if any, was built from the
current data and scale; the lazily built tree always satisfies it (the
stale-cache case is the separate defect of C5). -/
theorem C7_projection (st : SolverState) (eps_sig : List Sample)
    (integ : List ℚ → ℚ)
    (hcache : st.data_tree = none ∨
      st.data_tree = some (buildTree st.material_data st.sqE))
    (hne : st.material_data ≠ []) (k : Nat) (hk : k < eps_sig.length) :
    (optimal_local_states st eps_sig integ).idx.getD k 0 < st.material_data.length ∧
      (∀ j, j < st.material_data.length →
        dist2 (rescale st.sqE (eps_sig.getD k (0, 0)))
            (rescale st.sqE (st.material_data.getD
              ((optimal_local_states st eps_sig integ).idx.getD k 0) (0, 0))) ≤
          dist2 (rescale st.sqE (eps_sig.getD k (0, 0)))
            (rescale st.sqE (st.material_data.getD j (0, 0)))) ∧
      (optimal_local_states st eps_sig integ).eps_sig_optimal.getD k (0, 0) =
        st.material_data.getD
          ((optimal_local_states st eps_sig integ).idx.getD k 0) (0, 0) := by
  have hlen : (buildTree st.material_data st.sqE).length = st.material_data.length := by
    simp [buildTree]
  have htne : buildTree st.material_data st.sqE ≠ [] := by
    simpa [buildTree] using hne
  obtain ⟨hNlt, hNmin⟩ := nearestIdx_spec (rescale st.sqE (eps_sig.getD k (0, 0)))
    (buildTree st.material_data st.sqE) htne
  have hidx := optimal_idx_getD st eps_sig integ hcache k hk
  refine ⟨?_, ?_, optimal_opt_getD st eps_sig integ k hk⟩
  · rw [hidx]; omega
  · intro j hj
    have h := hNmin j (by omega)
    rw [buildTree_getD _ _ _ (by omega), buildTree_getD _ _ _ hj] at h
    rw [hidx]
    exact h

/-- C7 witness: the projection of the converging run's candidate state. -/
theorem C7_projection_witness :
    (optimal_local_states exState [(2/5, 1/10)] List.sum).idx.getD 0 0 <
        exState.material_data.length ∧
      (∀ j, j < exState.material_data.length →
        dist2 (rescale exState.sqE (([((2:ℚ)/5, (1:ℚ)/10)]).getD 0 (0, 0)))
            (rescale exState.sqE (exState.material_data.getD
              ((optimal_local_states exState [(2/5, 1/10)] List.sum).idx.getD 0 0) (0, 0))) ≤
          dist2 (rescale exState.sqE (([((2:ℚ)/5, (1:ℚ)/10)]).getD 0 (0, 0)))
            (rescale exState.sqE (exState.material_data.getD j (0, 0)))) ∧
      (optimal_local_states exState [(2/5, 1/10)] List.sum).eps_sig_optimal.getD 0 (0, 0) =
        exState.material_data.getD
          ((optimal_local_states exState [(2/5, 1/10)] List.sum).idx.getD 0 0) (0, 0) :=
  C7_projection exState [(2/5, 1/10)] List.sum (Or.inl rfl)
    (by simp [exState, exData]) 0 (by simp)

/-- A list of length two is recovered verbatim from its `toPair` reading. -/
theorem eq_pair_of_length_two (r : List ℚ) (h : r.length = 2) :
    r = [(toPair r).1, (toPair r).2] := by
  match r with
  | [a, b] => rfl
  | [] => simp at h
  | [a] => simp at h
  | a :: b :: c :: t => simp at h

/-- C6: `load_material_data` over a nonempty well-formed two-dimensional
array (all rows share the length `m`) fails exactly when some row does not
have two fields — the eager shape assertion at load time — and on success
stores the rows verbatim as `(strain, stress)` pairs and resets the cached
spatial index to `None`. -/
theorem C6_load (st : SolverState) (rows : List (List ℚ)) (m : Nat)
    (hne : rows ≠ []) (huni : ∀ r ∈ rows, r.length = m) :
    (load_material_data st rows = none ↔ ∃ r ∈ rows, r.length ≠ 2) ∧
      ∀ st', load_material_data st rows = some st' →
        st'.material_data = rows.map toPair ∧
        st'.data_tree = none ∧
        ∀ r ∈ rows, r = [(toPair r).1, (toPair r).2] := by
  cases rows with
  | nil => exact absurd rfl hne
  | cons r0 rest =>
    have hm : r0.length = m := huni r0 (by simp)
    by_cases h2 : r0.length = 2
    · have hload : load_material_data st (r0 :: rest) =
          some { st with material_data := (r0 :: rest).map toPair, data_tree := none } := by
        simp [load_material_data, h2]
      constructor
      · rw [hload]
        constructor
        · intro h; simp at h
        · rintro ⟨r, hr, hrne⟩
          exact absurd (show r.length = 2 by rw [huni r hr, ← hm, h2]) hrne
      · intro st' hst'
        rw [hload, Option.some.injEq] at hst'
        refine ⟨by rw [← hst'], by rw [← hst'], ?_⟩
        intro r hr
        exact eq_pair_of_length_two r (by rw [huni r hr, ← hm, h2])
    · have hload : load_material_data st (r0 :: rest) = none := by
        simp [load_material_data, h2]
      constructor
      · rw [hload]
        exact ⟨fun _ => ⟨r0, by simp, h2⟩, fun _ => rfl⟩
      · intro st' hst'
        rw [hload] at hst'
        exact absurd hst' (by simp)

/-- C6 witness: a valid 2 × 2 load succeeds with the stated effects. -/
theorem C6_load_witness :
    (load_material_data exState [[0, 0], [1, 2]] = none ↔
        ∃ r ∈ [[(0:ℚ), 0], [1, 2]], r.length ≠ 2) ∧
      ∀ st', load_material_data exState [[0, 0], [1, 2]] = some st' →
        st'.material_data = [[(0:ℚ), 0], [1, 2]].map toPair ∧
        st'.data_tree = none ∧
        ∀ r ∈ [[(0:ℚ), 0], [1, 2]], r = [(toPair r).1, (toPair r).2] :=
  C6_load exState [[0, 0], [1, 2]] 2 (by simp) (by simp)

/-- C1: concrete non-converging run: with `n_iterations = 0` and data forcing
the matched index to change, `solve` does not raise; it hands the
`RuntimeError` value — carrying only the iteration budget, not the trace —
back through the ordinary return channel, as the `returnedError` outcome. -/
theorem C1_code_eval :
    (solve c1Truss c1State 1 exU exF 0 1 1 [1]).1 = SolveOutcome.returnedError 0 := by
  norm_num [solve, solveLoop, iterBody, subACall, subBCall, optimal_local_states,
    buildTree, rescale, dist2, nearestIdx, argminAux, allcloseIdx, iscloseQ,
    U_dict_0, c1Truss, c1State, c1Data, exU, exF]

/-- C3: degenerate derivation of `E_num`: with every strain numerically zero
the derived value is the NaN mean of an empty array (modelled `none`) and the
code continues with it instead of raising; with nonzero-strain samples
present the derivation is the mean secant modulus over exactly those
samples. -/
theorem C3_code_eval :
    effectiveE none [((0 : ℚ), (0 : ℚ))] = none ∧
    effectiveE none [(1 / 1000000000, 5)] = none ∧
    effectiveE none [(0, 0), (1, 2), (2, 8)] = some 3 := by
  have h0 : iscloseZero (0 : ℚ) = true := by norm_num [iscloseZero]
  have h9 : iscloseZero (1 / 1000000000 : ℚ) = true := by norm_num [iscloseZero, abs_le]
  have h1 : iscloseZero (1 : ℚ) = false := by norm_num [iscloseZero, abs_le]
  have h2 : iscloseZero (2 : ℚ) = false := by norm_num [iscloseZero, abs_le]
  norm_num [effectiveE, deriveE, npMean, secantList, List.filter, h0, h9, h1, h2]

/-- C5: stale-index reuse across two `solve` calls: the first call
(`E_num = 1`) leaves behind the tree built with scale 1; a second call with
`E_num = 4` sets `sqE := 2` but finds `data_tree` non-`None` and silently
reuses it, matching the query `(0, 1)` to index 0, while the true nearest
neighbour under the current scale (tree rebuilt with `sqE = 2`) is
index 1. -/
theorem C5_code_eval :
    c5AfterFirst.data_tree = some (buildTree c5Data 1) ∧
    (optimal_local_states { c5AfterFirst with sqE := 2 } [(0, 1)] List.sum).idx = [0] ∧
    (optimal_local_states { c5AfterFirst with sqE := 2 } [(0, 1)] List.sum).st.data_tree
      = some (buildTree c5Data 1) ∧
    nearestIdx (rescale 2 (0, 1)) (buildTree c5Data 2) = 1 := by
  norm_num [solve, solveLoop, iterBody, subACall, subBCall, optimal_local_states,
    buildTree, rescale, dist2, nearestIdx, argminAux, allcloseIdx, iscloseQ,
    U_dict_0, c5Truss, c5Data, c5AfterFirst]

/-- C2 counterexample: concrete converging run in which `solve` returns the
candidate mechanical strain `[2/5]` and stress `[1/10]` of the final
iteration, while the matched rows drawn from the Material Sample Set at the
matched index are `[(0, 0)]`: the returned arrays are not the matched
ones. -/
theorem C2_counterexample :
    (solve exTruss exState 1 exU exF 5 1 1 [0]).1 =
      SolveOutcome.ok [5] [2/5] [1/10] [17/100] ∧
    (iterBody exTruss 1 1 exU exF exIter).newIdx = [0] ∧
    (iterBody exTruss 1 1 exU exF exIter).newOpt = [(0, 0)] ∧
    ((2 : ℚ)/5 ≠ 0 ∧ (1 : ℚ)/10 ≠ 0) := by
  norm_num [solve, solveLoop, iterBody, subACall, subBCall, optimal_local_states,
    buildTree, rescale, dist2, nearestIdx, argminAux, allcloseIdx, iscloseQ,
    U_dict_0, exTruss, exState, exIter, exData, exU, exF]

/-- C2 (amended): whenever the convergence check succeeds, `solve` returns
the displacement `u` from the current iteration's sub-problem A, the
candidate strain array of sub-problem A and the combined candidate stress
array — the mechanical values `eps_sig`, not the matched sample rows
`eps_sig_` — together with the full Iteration Trace. -/
theorem C2_candidate_returned (tr : Truss) (A E : ℚ) (U : BCMap) (F : FMap)
    (nit fuel : Nat) (s : IterState)
    (hconv : allcloseIdx s.idx (iterBody tr A E U F s).newIdx = true) :
    solveLoop tr A E U F nit (fuel + 1) s =
      (SolveOutcome.ok (iterBody tr A E U F s).u
          ((iterBody tr A E U F s).cand.map Prod.fst)
          ((iterBody tr A E U F s).cand.map Prod.snd)
          (s.trace ++ [(iterBody tr A E U F s).f_obj]),
        (iterBody tr A E U F s).st, [(subACall A E U s).construct_K]) := by
  rw [solveLoop]
  simp only [hconv, if_true]

/-- C2 witness: the amended claim applied to the converging concrete run. -/
theorem C2_candidate_returned_witness :
    solveLoop exTruss 1 1 exU exF 5 (5 + 1) exIter =
      (SolveOutcome.ok (iterBody exTruss 1 1 exU exF exIter).u
          ((iterBody exTruss 1 1 exU exF exIter).cand.map Prod.fst)
          ((iterBody exTruss 1 1 exU exF exIter).cand.map Prod.snd)
          (exIter.trace ++ [(iterBody exTruss 1 1 exU exF exIter).f_obj]),
        (iterBody exTruss 1 1 exU exF exIter).st,
        [(subACall 1 1 exU exIter).construct_K]) :=
  C2_candidate_returned exTruss 1 1 exU exF 5 5 exIter (by
    norm_num [iterBody, subACall, subBCall, optimal_local_states, buildTree,
      rescale, dist2, nearestIdx, argminAux, allcloseIdx, iscloseQ, U_dict_0,
      exTruss, exState, exIter, exData, exU, exF])

/-- Over natural numbers at most 99999, the `np.isclose` acceptance is exact
equality (the bound is sharp: the C4 counterexample lives just above it). -/
theorem iscloseNat_iff (a b : Nat) (hb : b ≤ 99999) :
    (iscloseQ (a : ℚ) (b : ℚ) = true) ↔ a = b := by
  rw [iscloseQ, decide_eq_true_eq]
  constructor
  · intro h
    by_contra hne
    have hz : (a : ℤ) - (b : ℤ) ≠ 0 := by
      intro hz
      exact hne (by omega)
    have h1 : (1 : ℤ) ≤ |(a : ℤ) - (b : ℤ)| := Int.one_le_abs hz
    have habs : (1 : ℚ) ≤ |(a : ℚ) - (b : ℚ)| := by
      calc (1 : ℚ) = ((1 : ℤ) : ℚ) := by norm_num
        _ ≤ ((|(a : ℤ) - (b : ℤ)| : ℤ) : ℚ) := by exact_mod_cast h1
        _ = |(a : ℚ) - (b : ℚ)| := by push_cast; ring_nf
    have hb' : |(b : ℚ)| ≤ 99999 := by
      rw [abs_of_nonneg (by positivity)]
      exact_mod_cast hb
    linarith
  · rintro rfl
    simp only [sub_self, abs_zero]
    positivity

/-- Over equal-length index arrays whose entries stay at or below 99999,
the `np.allclose` acceptance coincides with exact element-wise equality. -/
theorem allcloseIdx_eq_iff (a b : List Nat) (hlen : a.length = b.length)
    (hb : ∀ x ∈ b, x ≤ 99999) : (allcloseIdx a b = true) ↔ a = b := by
  induction a generalizing b with
  | nil =>
    cases b with
    | nil => simp [allcloseIdx]
    | cons y ys => simp at hlen
  | cons x xs ih =>
    cases b with
    | nil => simp at hlen
    | cons y ys =>
      have hxy := iscloseNat_iff x y (hb y (by simp))
      have hys : ∀ z ∈ ys, z ≤ 99999 := fun z hz => hb z (by simp [hz])
      have hrec := ih ys (by simpa using hlen) hys
      simp only [allcloseIdx, List.zip_cons_cons, List.all_cons, Bool.and_eq_true,
        List.cons.injEq]
      rw [hxy]
      exact and_congr_right fun _ => hrec

/-- C4 (amended): the loop transitions to converged exactly when
`np.allclose` accepts the two index arrays: when it accepts, the current
iteration returns; when it rejects, the loop recurses on the updated local
state.  Over equal-length index arrays with all entries at most 99999 this
acceptance coincides with exact element-wise equality, but not in general
(see the counterexample): for sample sets with more than 100001 rows a pair
of distinct indices can be treated as unchanged. -/
theorem C4_convergence_test (tr : Truss) (A E : ℚ) (U : BCMap) (F : FMap)
    (nit fuel : Nat) (s : IterState) :
    (allcloseIdx s.idx (iterBody tr A E U F s).newIdx = true →
        solveLoop tr A E U F nit (fuel + 1) s =
          (SolveOutcome.ok (iterBody tr A E U F s).u
              ((iterBody tr A E U F s).cand.map Prod.fst)
              ((iterBody tr A E U F s).cand.map Prod.snd)
              (s.trace ++ [(iterBody tr A E U F s).f_obj]),
            (iterBody tr A E U F s).st, [(subACall A E U s).construct_K])) ∧
      (allcloseIdx s.idx (iterBody tr A E U F s).newIdx = false →
        solveLoop tr A E U F nit (fuel + 1) s =
          ((solveLoop tr A E U F nit fuel
              { idx := (iterBody tr A E U F s).newIdx
                eps_sig := (iterBody tr A E U F s).newOpt
                st := (iterBody tr A E U F s).st
                trace := s.trace ++ [(iterBody tr A E U F s).f_obj] }).1,
            (solveLoop tr A E U F nit fuel
              { idx := (iterBody tr A E U F s).newIdx
                eps_sig := (iterBody tr A E U F s).newOpt
                st := (iterBody tr A E U F s).st
                trace := s.trace ++ [(iterBody tr A E U F s).f_obj] }).2.1,
            (subACall A E U s).construct_K ::
              (solveLoop tr A E U F nit fuel
                { idx := (iterBody tr A E U F s).newIdx
                  eps_sig := (iterBody tr A E U F s).newOpt
                  st := (iterBody tr A E U F s).st
                  trace := s.trace ++ [(iterBody tr A E U F s).f_obj] }).2.2)) ∧
      ∀ a b : List Nat, a.length = b.length → (∀ x ∈ b, x ≤ 99999) →
        ((allcloseIdx a b = true) ↔ a = b) := by
  refine ⟨?_, ?_, fun a b h1 h2 => allcloseIdx_eq_iff a b h1 h2⟩
  · intro hc
    rw [solveLoop]
    simp only [hc, if_true]
  · intro hc
    rw [solveLoop]
    simp only [hc, Bool.false_eq_true, if_false]

/-- C4 witness: the amended claim at the converging concrete run (converged
branch) and at a pair of small equal index arrays (equality reading). -/
theorem C4_convergence_test_witness :
    (solveLoop exTruss 1 1 exU exF 5 (5 + 1) exIter =
        (SolveOutcome.ok (iterBody exTruss 1 1 exU exF exIter).u
            ((iterBody exTruss 1 1 exU exF exIter).cand.map Prod.fst)
            ((iterBody exTruss 1 1 exU exF exIter).cand.map Prod.snd)
            (exIter.trace ++ [(iterBody exTruss 1 1 exU exF exIter).f_obj]),
          (iterBody exTruss 1 1 exU exF exIter).st,
          [(subACall 1 1 exU exIter).construct_K])) ∧
      ((allcloseIdx [3, 7] [3, 7] = true) ↔ [3, 7] = [3, 7]) :=
  ⟨(C4_convergence_test exTruss 1 1 exU exF 5 5 exIter).1 (by
      norm_num [iterBody, subACall, subBCall, optimal_local_states, buildTree,
        rescale, dist2, nearestIdx, argminAux, allcloseIdx, iscloseQ, U_dict_0,
        exTruss, exState, exIter, exData, exU, exF]),
    (C4_convergence_test exTruss 1 1 exU exF 5 5 exIter).2.2 [3, 7] [3, 7] rfl (by
      intro x hx
      simp at hx
      rcases hx with h | h <;> omega)⟩

/-- C4 counterexample: the convergence test of the loop is `np.allclose`
over the two index arrays, and it accepts the distinct pair 100001 versus
100000 (`|a - b| = 1 ≤ 1e-8 + 1e-5 * 100000`): a pair of distinct indices
treated as unchanged. -/
theorem C4_counterexample :
    allcloseIdx [100001] [100000] = true ∧ (100001 : Nat) ≠ 100000 := by
  norm_num [allcloseIdx, iscloseQ]

/-- C8: in every iteration sub-problem A is invoked with
`sig0 = -E_num * eps_current` (the negative of the modulus times the current
local strain guess) and no forces, sub-problem B with `sig0 = sig_current`,
the zeroed displacement map and the caller's forces, and the candidate local
state pairs the strain from sub-problem A with the combined stress
`sig_current + E_num * eps_eta`. -/
theorem C8_subproblems (tr : Truss) (A E : ℚ) (U : BCMap) (F : FMap)
    (s : IterState) (i : Nat) (hi : i < s.eps_sig.length)
    (hiA : i < (tr.tsolve (subACall A E U s)).2.length)
    (hiB : i < (tr.tsolve (subBCall A E U F tr.construct_K_default s)).2.length) :
    (subACall A E U s).sig0.getD i 0 = -E * (s.eps_sig.getD i (0, 0)).1 ∧
      (subACall A E U s).F_dict = [] ∧
      (subBCall A E U F tr.construct_K_default s).sig0.getD i 0 =
        (s.eps_sig.getD i (0, 0)).2 ∧
      (subBCall A E U F tr.construct_K_default s).U_dict = U_dict_0 U ∧
      (subBCall A E U F tr.construct_K_default s).F_dict = F ∧
      (iterBody tr A E U F s).u = (tr.tsolve (subACall A E U s)).1 ∧
      (iterBody tr A E U F s).cand.getD i (0, 0) =
        ((tr.tsolve (subACall A E U s)).2.getD i 0,
          (s.eps_sig.getD i (0, 0)).2 +
            E * (tr.tsolve (subBCall A E U F tr.construct_K_default s)).2.getD i 0) := by
  refine ⟨?_, rfl, ?_, rfl, rfl, rfl, ?_⟩
  · simp only [subACall]
    rw [getD_map_of_lt _ _ _ hi (0, 0) 0]
  · simp only [subBCall]
    rw [getD_map_of_lt _ _ _ hi (0, 0) 0]
  · simp only [iterBody]
    have hzip : i < (s.eps_sig.zip
        (tr.tsolve (subBCall A E U F tr.construct_K_default s)).2).length := by
      rw [List.length_zip]; omega
    have hsig : i < ((s.eps_sig.zip
        (tr.tsolve (subBCall A E U F tr.construct_K_default s)).2).map
          fun p => p.1.2 + E * p.2).length := by
      rw [List.length_map]; omega
    rw [getD_zip_of_lt _ _ _ hiA hsig 0 0,
      getD_map_of_lt _ _ _ hzip ((0, 0), 0) 0,
      getD_zip_of_lt _ _ _ hi hiB (0, 0) 0]

/-- C8 witness: the sub-problem call contract at the converging concrete
run, element 0. -/
theorem C8_subproblems_witness :
    (subACall 1 1 exU exIter).sig0.getD 0 0 =
        -1 * (exIter.eps_sig.getD 0 (0, 0)).1 ∧
      (subACall 1 1 exU exIter).F_dict = [] ∧
      (subBCall 1 1 exU exF exTruss.construct_K_default exIter).sig0.getD 0 0 =
        (exIter.eps_sig.getD 0 (0, 0)).2 ∧
      (subBCall 1 1 exU exF exTruss.construct_K_default exIter).U_dict = U_dict_0 exU ∧
      (subBCall 1 1 exU exF exTruss.construct_K_default exIter).F_dict = exF ∧
      (iterBody exTruss 1 1 exU exF exIter).u =
        (exTruss.tsolve (subACall 1 1 exU exIter)).1 ∧
      (iterBody exTruss 1 1 exU exF exIter).cand.getD 0 (0, 0) =
        ((exTruss.tsolve (subACall 1 1 exU exIter)).2.getD 0 0,
          (exIter.eps_sig.getD 0 (0, 0)).2 +
            1 * (exTruss.tsolve
              (subBCall 1 1 exU exF exTruss.construct_K_default exIter)).2.getD 0 0) :=
  C8_subproblems exTruss 1 1 exU exF exIter 0 (by simp [exIter])
    (by norm_num [exTruss, subACall])
    (by norm_num [exTruss, subBCall, exF])

/-- Every sub-problem-A flag logged by the loop from a state whose trace is
already nonempty is false. -/
theorem solveLoop_flags_false (tr : Truss) (A E : ℚ) (U : BCMap) (F : FMap)
    (nit : Nat) :
    ∀ (fuel : Nat) (s : IterState), s.trace ≠ [] →
      ∀ b ∈ (solveLoop tr A E U F nit fuel s).2.2, b = false := by
  intro fuel
  induction fuel with
  | zero =>
    intro s hs b hb
    simp [solveLoop] at hb
  | succ fuel ih =>
    intro s hs b hb
    have hflag : (subACall A E U s).construct_K = false := by
      simp only [subACall]
      rw [Bool.eq_false_iff]
      intro h
      exact hs (List.isEmpty_iff.mp h)
    by_cases hc : allcloseIdx s.idx (iterBody tr A E U F s).newIdx = true
    · rw [solveLoop] at hb
      simp only [hc, if_true, List.mem_singleton] at hb
      rw [hb]
      exact hflag
    · rw [Bool.not_eq_true] at hc
      rw [solveLoop] at hb
      simp only [hc, Bool.false_eq_true, if_false, List.mem_cons] at hb
      rcases hb with rfl | hb'
      · exact hflag
      · exact ih _ (by simp) b hb'

/-- C9: within one `solve` call, the matrix-assembly flag handed to
sub-problem A is true on the first iteration and false on every later one,
so the system matrix is (re)assembled exactly once per call: the logged flag
list opens with `true` and every entry of its tail is `false`. -/
theorem C9_constructK_once (tr : Truss) (st : SolverState) (A : ℚ) (U : BCMap)
    (F : FMap) (nit : Nat) (E sqE : ℚ) (idx0 : List Nat) :
    ((solve tr st A U F nit E sqE idx0).2.2).head? = some true ∧
      ∀ b ∈ ((solve tr st A U F nit E sqE idx0).2.2).tail, b = false := by
  rw [solve]
  by_cases hc : allcloseIdx idx0 (iterBody tr A E U F
      { idx := idx0
        eps_sig := idx0.map fun i => st.material_data.getD i (0, 0)
        st := { st with sqE := sqE }
        trace := [] }).newIdx = true
  · rw [solveLoop]
    simp only [hc, if_true]
    exact ⟨rfl, by intro b hb; simp at hb⟩
  · rw [Bool.not_eq_true] at hc
    rw [solveLoop]
    simp only [hc, Bool.false_eq_true, if_false]
    refine ⟨rfl, ?_⟩
    intro b hb
    exact solveLoop_flags_false tr A E U F nit nit _ (by simp) b hb

/-- C9 witness: on the converging concrete run the first logged
matrix-assembly flag is true. -/
theorem C9_constructK_once_witness :
    ((solve exTruss exState 1 exU exF 5 1 1 [0]).2.2).head? = some true :=
  (C9_constructK_once exTruss exState 1 exU exF 5 1 1 [0]).1

/-- `_optimal_local_states` never touches the stored sample set. -/
theorem optimal_preserves_data (st : SolverState) (eps_sig : List Sample)
    (integ : List ℚ → ℚ) :
    (optimal_local_states st eps_sig integ).st.material_data = st.material_data := rfl

/-- The loop never touches the stored sample set. -/
theorem solveLoop_preserves_data (tr : Truss) (A E : ℚ) (U : BCMap) (F : FMap)
    (nit : Nat) :
    ∀ (fuel : Nat) (s : IterState),
      (solveLoop tr A E U F nit fuel s).2.1.material_data = s.st.material_data := by
  intro fuel
  induction fuel with
  | zero => intro s; rfl
  | succ fuel ih =>
    intro s
    by_cases hc : allcloseIdx s.idx (iterBody tr A E U F s).newIdx = true
    · rw [solveLoop]
      simp only [hc, if_true]
      rfl
    · rw [Bool.not_eq_true] at hc
      rw [solveLoop]
      simp only [hc, Bool.false_eq_true, if_false]
      rw [ih]
      rfl

/-- C10: `solve` never mutates the loaded Material Sample Set — the
rescalings for index construction and queries operate on copies, so
`material_data` is intact in the final state — and the zeroed displacement
map is a freshly built map with the same keys in which every prescribed
value becomes `0` and every unconstrained (`None`) axis stays `None`.  (The
caller's maps are immutable values of this embedding; the iteration passes
`U`, `U_dict_0 U` and `F` through unchanged, see C8.) -/
theorem C10_no_mutation (tr : Truss) (st : SolverState) (A : ℚ) (U : BCMap)
    (F : FMap) (nit : Nat) (E sqE : ℚ) (idx0 : List Nat)
    (i j : Nat) (hi : i < U.length) (hj : j < (U.getD i (0, [])).2.length) :
    (solve tr st A U F nit E sqE idx0).2.1.material_data = st.material_data ∧
      (U_dict_0 U).length = U.length ∧
      ((U_dict_0 U).getD i (0, [])).1 = (U.getD i (0, [])).1 ∧
      ((U_dict_0 U).getD i (0, [])).2.getD j none =
        (match (U.getD i (0, [])).2.getD j none with
          | some _ => some (0 : ℚ)
          | none => none) := by
  refine ⟨?_, by simp [U_dict_0], ?_, ?_⟩
  · rw [solve, solveLoop_preserves_data]
  · rw [U_dict_0, getD_map_of_lt _ _ _ hi (0, []) (0, [])]
  · rw [U_dict_0, getD_map_of_lt _ _ _ hi (0, []) (0, [])]
    dsimp only
    rw [getD_map_of_lt _ _ _ hj none none]

/-- C10 witness: the frame condition at the converging concrete run. -/
theorem C10_no_mutation_witness :
    (solve exTruss exState 1 exU exF 5 1 1 [0]).2.1.material_data =
        exState.material_data ∧
      (U_dict_0 exU).length = exU.length ∧
      ((U_dict_0 exU).getD 0 (0, [])).1 = (exU.getD 0 (0, [])).1 ∧
      ((U_dict_0 exU).getD 0 (0, [])).2.getD 0 none =
        (match (exU.getD 0 (0, [])).2.getD 0 none with
          | some _ => some (0 : ℚ)
          | none => none) :=
  C10_no_mutation exTruss exState 1 exU exF 5 1 1 [0] 0 0
    (by simp [exU]) (by simp [exU])

end DDTruss
